import Mathlib

/-!
Shallow embedding of the distributed-whiteboard replication layer:
`RedisWhiteboardService` (scripts/services/RedisWhiteboardService.js) and
`RedisAdapter` (scripts/services/RedisAdapter.js).

The service's `localCache` (a JS object keyed by whiteboard id) is modelled
as a total function `String → Option (List Action)` (a key set to
`undefined` behaves like an absent key everywhere the code reads it).
The Redis backing store is modelled as `String → List Action`: the only
keys the service uses are list keys, `lRange` of a missing key returns the
empty list, and `listReplace` with an empty list deletes the key, so the
empty list is indistinguishable from an absent key.  Published events and
handler invocations are recorded in logs so that theorems can speak about
them.  Timestamps are not modelled (no claim mentions them).
-/

namespace Whiteboard

/-- One whiteboard action, as the JS event/content objects are used by the
service: `t` is the tool discriminator, `username` the owner, `drawId` the
group correlation id (JS `undefined` is `none`; `===` on two `undefined`s
is `true`, matching `Option` equality), `d` the payload sequence, and
`wid` the board id carried in envelopes (stripped before storage). -/
structure Action where
  t : String
  username : String
  drawId : Option String
  d : List String
  wid : Option String
deriving DecidableEq

/-- A replication event as published on the `whiteboard:events` channel. -/
structure RepEvent where
  type : String
  wid : String
  tool : Option String
  data : Option (List Action)
  content : Option Action
  nodeId : String
deriving DecidableEq

/-- Per-node service state: the local cache, the shared backing store,
the node id and adapter readiness, the log of events this node published,
and the log of remote events delivered to registered callbacks. -/
structure St where
  nodeId : String
  ready : Bool
  cache : String → Option (List Action)
  store : String → List Action
  events : List RepEvent
  delivered : List RepEvent

/-- Pointwise update of a string-keyed map. -/
def updFun {α : Type} (f : String → α) (k : String) (v : α) : String → α :=
  fun k2 => if k2 == k then v else f k2

/-- JS object keys are strings; indexing `localCache` with an `undefined`
board id uses the key "undefined". -/
def widKey : Option String → String
  | some w => w
  | none => "undefined"

/-- Redis key of a board's action list (WHITEBOARD_PREFIX + wid). -/
def whiteboardKey (wid : String) : String := "whiteboard:data:" ++ wid

/-- Redis key of a board's undo stack (UNDO_PREFIX + wid). -/
def undoKey (wid : String) : String := "whiteboard:undo:" ++ wid

/-- JS `loadStoredData(wid)`: local cache hit (any cached array, even empty,
is truthy) wins; else, when the adapter is ready and the stored list is
non-empty, seed the cache from the store; else cache and return `[]`. -/
def loadStoredData (s : St) (wid : String) : List Action × St :=
  match s.cache wid with
  | some data => (data, s)
  | none =>
    if s.ready then
      if (s.store (whiteboardKey wid)).length > 0 then
        (s.store (whiteboardKey wid),
         { s with cache := updFun s.cache wid (some (s.store (whiteboardKey wid))) })
      else
        ([], { s with cache := updFun s.cache wid (some []) })
    else
      ([], { s with cache := updFun s.cache wid (some []) })

/-- JS `getUndoStack(wid)`: read the stored stack when ready, else `[]`. -/
def getUndoStack (s : St) (wid : String) : List Action :=
  if s.ready then s.store (undoKey wid) else []

/-- JS `saveUndoStack(wid, stack)`: `listReplace` the stored stack when
ready, else a no-op. -/
def saveUndoStack (s : St) (wid : String) (stack : List Action) : St :=
  if s.ready then { s with store := updFun s.store (undoKey wid) stack } else s

/-- JS `saveToDB(wid)`: when ready and the cache holds the board (an empty
cached array is truthy), `listReplace` the stored action list with it. -/
def saveToDB (s : St) (wid : String) : St :=
  if s.ready then
    match s.cache wid with
    | some data => { s with store := updFun s.store (whiteboardKey wid) data }
    | none => s
  else s

/-- JS `publishEvent(event)`: no-op when not ready; otherwise stamp the
event with this node's id and publish it (append to the event log). -/
def publishEvent (s : St) (e : RepEvent) : St :=
  if s.ready then { s with events := s.events ++ [{ e with nodeId := s.nodeId }] } else s

/-- JS `handleRemoteEvent(message)`: ignore events whose `nodeId` equals this
node's id; otherwise apply update/clear to the cache (an empty-string
board id is falsy in JS and skips the cache mutation) and then invoke
every registered handler with the message (recorded in `delivered`). -/
def handleRemoteEvent (s : St) (msg : RepEvent) : St :=
  if msg.nodeId == s.nodeId then s
  else
    let s1 :=
      if msg.type == "update" && msg.wid != "" then
        { s with cache := updFun s.cache msg.wid msg.data }
      else if msg.type == "clear" && msg.wid != "" then
        { s with cache := updFun s.cache msg.wid none }
      else s
    { s1 with delivered := s1.delivered ++ [msg] }

/-- JS `clearWhiteboard(wid)`: drop the cache entry, delete the stored
action list and undo stack when ready, and publish a clear event. -/
def clearWhiteboard (s : St) (wid : String) : St :=
  let s1 : St := { s with cache := updFun s.cache wid none }
  let s2 : St :=
    if s1.ready then
      { s1 with store := updFun (updFun s1.store (whiteboardKey wid) []) (undoKey wid) [] }
    else s1
  publishEvent s2 { type := "clear", wid := wid, tool := none, data := none,
                    content := none, nodeId := "" }

/-- Strip the board id from a content object before storing it
(`delete contentToSave["wid"]`). -/
def stripWid (c : Action) : Action := { c with wid := none }

/-- JS `saveDrawingAction(wid, content)`: load the board, and for the
`setTextboxText` tool first drop every stored action with the same tool
and the same leading payload identifier `d[0]`; then append the
wid-stripped content, cache and persist. -/
def saveDrawingAction (s : St) (wid : String) (content : Action) : St :=
  let L := loadStoredData s wid
  let board1 :=
    if content.t == "setTextboxText" then
      L.1.filter (fun item => !(item.t == "setTextboxText" && item.d.head? == content.d.head?))
    else L.1
  let board2 := board1 ++ [stripWid content]
  let s2 : St := { L.2 with cache := updFun L.2.cache wid (some board2) }
  saveToDB s2 wid

/-- The outer undo/redo scan: the last (most recent) element of the list
owned by `user`, i.e. the first hit of a scan from the end. -/
def findLastOwned (user : String) : List Action → Option Action
  | [] => none
  | a :: rest =>
    match findLastOwned user rest with
    | some b => some b
    | none => if a.username == user then some a else none

/-- The inner undo/redo scan: walk the list from the end, splicing out
every element matching {drawId, username} and pushing it (in scan order,
i.e. reverse list order) onto the destination.  Returns (kept, moved). -/
def extractGroup (did : Option String) (user : String) :
    List Action → List Action × List Action
  | [] => ([], [])
  | a :: rest =>
    let p := extractGroup did user rest
    if a.drawId == did && a.username == user then (p.1, p.2 ++ [a])
    else (a :: p.1, p.2)

/-- The undo-stack size limit: when more than 1000 entries are present,
`splice(0, length - 1000)` drops the oldest ones. -/
def trimUndo (stack : List Action) : List Action :=
  if stack.length > 1000 then stack.drop (stack.length - 1000) else stack

/-- JS `handleUndo(wid, username)`: find the most recent action owned by the
user, move every action of its {drawId, username} group onto the undo
stack (in reverse scan order), trim the stack to 1000, then cache and
persist both the list and the stack. -/
def handleUndo (s : St) (wid user : String) : St :=
  let L := loadStoredData s wid
  let stack0 := getUndoStack L.2 wid
  let step :=
    match findLastOwned user L.1 with
    | none => (L.1, stack0)
    | some a =>
      let p := extractGroup a.drawId user L.1
      (p.1, stack0 ++ p.2)
  let stack2 := trimUndo step.2
  let s2 : St := { L.2 with cache := updFun L.2.cache wid (some step.1) }
  let s3 := saveUndoStack s2 wid stack2
  saveToDB s3 wid

/-- JS `handleRedo(wid, username)`: find the most recent undo-stack entry
owned by the user, move every stack entry of its {drawId, username}
group back onto the action list (appended, in reverse scan order), then
cache and persist both. -/
def handleRedo (s : St) (wid user : String) : St :=
  let L := loadStoredData s wid
  let stack0 := getUndoStack L.2 wid
  let step :=
    match findLastOwned user stack0 with
    | none => (L.1, stack0)
    | some a =>
      let p := extractGroup a.drawId user stack0
      (L.1 ++ p.2, p.1)
  let s2 : St := { L.2 with cache := updFun L.2.cache wid (some step.1) }
  let s3 := saveUndoStack s2 wid step.2
  saveToDB s3 wid

/-- JS `isDrawingTool(tool)`. -/
def isDrawingTool (tool : String) : Bool :=
  ["line", "pen", "rect", "circle", "eraser", "addImgBG", "recSelect", "eraseRec",
   "addTextBox", "setTextboxText", "removeTextbox", "setTextboxPosition",
   "setTextboxFontSize", "setTextboxFontColor"].contains tool

/-- The mutation dispatch of `handleEventsAndData(content)`: on the tool
discriminator, clear / undo / redo / append-drawing-action / nothing. -/
def dispatchMutation (s : St) (content : Action) : St :=
  if content.t == "clear" then clearWhiteboard s (widKey content.wid)
  else if content.t == "undo" then handleUndo s (widKey content.wid) content.username
  else if content.t == "redo" then handleRedo s (widKey content.wid) content.username
  else if isDrawingTool content.t then saveDrawingAction s (widKey content.wid) content
  else s

/-- JS `handleEventsAndData(content)`: run the mutation dispatch, then
always publish an update event carrying the full post-mutation cached
action list (`data: this.localCache[wid]`, read after the mutation). -/
def handleEventsAndData (s : St) (content : Action) : St :=
  publishEvent (dispatchMutation s content)
    { type := "update", wid := widKey content.wid, tool := some content.t,
      data := (dispatchMutation s content).cache (widKey content.wid),
      content := some content, nodeId := "" }

/-!
The `RedisAdapter` model.  Handlers are identified by an abstract id
(`Nat`); stored values are the serialized strings the adapter reads and
writes.  Every operation is total (the JS methods catch every error), and
when the connection flag is down each returns its failure sentinel.
-/

/-- Adapter state: the readiness flag, the per-channel handler registry
(one slot per channel, as the JS `Map`), the key-value store, the list
store, and the log of published (channel, message) pairs. -/
structure AdapterState where
  isConnected : Bool
  handlers : String → Option Nat
  kv : String → Option String
  lists : String → List String
  published : List (String × String)

namespace RedisAdapter

/-- JS `publish(channel, message)`: false when not connected, else publish. -/
def publish (s : AdapterState) (ch msg : String) : Bool × AdapterState :=
  if s.isConnected then (true, { s with published := s.published ++ [(ch, msg)] })
  else (false, s)

/-- JS `subscribe(channel, handler)`: false when not connected, else record
the handler for the channel — `handlers.set` replaces any earlier one. -/
def subscribe (s : AdapterState) (ch : String) (h : Nat) : Bool × AdapterState :=
  if s.isConnected then (true, { s with handlers := updFun s.handlers ch (some h) })
  else (false, s)

/-- JS `set(key, value, ttl)`: false when not connected, else store. -/
def set (s : AdapterState) (k v : String) (ttl : Option Nat) : Bool × AdapterState :=
  if s.isConnected then (true, { s with kv := updFun s.kv k (some v) })
  else (false, s)

/-- JS `get(key)`: null when not connected, else the stored value. -/
def get (s : AdapterState) (k : String) : Option String :=
  if s.isConnected then s.kv k else none

/-- JS `delete(key)`: false when not connected, else remove the key. -/
def delete (s : AdapterState) (k : String) : Bool × AdapterState :=
  if s.isConnected then (true, { s with kv := updFun s.kv k none })
  else (false, s)

/-- JS `listPush(key, value)`: false when not connected, else `rPush`. -/
def listPush (s : AdapterState) (k v : String) : Bool × AdapterState :=
  if s.isConnected then (true, { s with lists := updFun s.lists k (s.lists k ++ [v]) })
  else (false, s)

/-- JS `listGetAll(key)`: the empty sequence when not connected, else the
full stored list. -/
def listGetAll (s : AdapterState) (k : String) : List String :=
  if s.isConnected then s.lists k else []

/-- JS `listReplace(key, items)`: false when not connected, else delete the
list and rewrite it with the given items. -/
def listReplace (s : AdapterState) (k : String) (items : List String) :
    Bool × AdapterState :=
  if s.isConnected then (true, { s with lists := updFun s.lists k items })
  else (false, s)

/-- Modelled from the spec: the dispatch of an arriving pub/sub message
is performed by the external client library, which is not part of this
repository; per the spec there is exactly one handler per channel and a
later subscribe silently replaces the earlier one, so a message arriving
on a channel is delivered to the channel's currently registered handler
only. -/
def deliverMessage (s : AdapterState) (ch : String) : Option Nat :=
  s.handlers ch

end RedisAdapter

/-- A first sample remote event used by witnesses. -/
def sampleMsg : RepEvent :=
  { type := "update", wid := "b1", tool := some "pen",
    data := some [], content := none, nodeId := "n1" }

/-- A sample node state used by witnesses. -/
def sampleSt : St :=
  { nodeId := "n1", ready := true, cache := fun _ => none,
    store := fun _ => [], events := [], delivered := [] }

/-- A disconnected adapter state used by witnesses. -/
def sampleAdapterDown : AdapterState :=
  { isConnected := false, handlers := fun _ => none, kv := fun _ => none,
    lists := fun _ => [], published := [] }

/-- A connected adapter state used by witnesses. -/
def sampleAdapterUp : AdapterState :=
  { sampleAdapterDown with isConnected := true }

/-- A sample drawing action (group {drawId "d", user "u"}). -/
def act1 : Action :=
  { t := "pen", username := "u", drawId := some "d", d := [], wid := none }

/-- A second action of the same {drawId, username} group. -/
def act2 : Action :=
  { t := "line", username := "u", drawId := some "d", d := [], wid := none }

/-- A textbox-text action for textbox id "id1". -/
def tb1 : Action :=
  { t := "setTextboxText", username := "u", drawId := some "t1", d := ["id1", "old"],
    wid := some "b" }

/-- A later textbox-text action for the same textbox id "id1". -/
def tb2 : Action :=
  { t := "setTextboxText", username := "u", drawId := some "t2", d := ["id1", "new"],
    wid := some "b" }

/-- A ready node whose board "b" holds the single action `act1`. -/
def stWithBoard : St :=
  { sampleSt with cache := updFun sampleSt.cache "b" (some [act1]) }

/-- The same node state with the adapter not ready. -/
def stNotReady : St :=
  { stWithBoard with ready := false }

/-- A node whose board "b" holds `act1` while the persisted undo stack
already holds a stale entry `act2` of the same {drawId, username} group. -/
def stStale : St :=
  { stWithBoard with store := updFun sampleSt.store (undoKey "b") [act2] }

/-- A node whose board "b" holds `act1` and whose persisted undo stack
for "b" is full (exactly 1000 entries). -/
def stFull : St :=
  { stWithBoard with
    store := updFun sampleSt.store (undoKey "b") (List.replicate 1000 act2) }

/-- C1: a replication event whose originating node id equals the
receiving node's own id is ignored entirely: the whole service state —
in particular the local cache for every board and the delivered-handler
log — is left unchanged. -/
theorem handleRemoteEvent_self_ignored (s : St) (msg : RepEvent)
    (h : msg.nodeId = s.nodeId) : handleRemoteEvent s msg = s := by
  simp [handleRemoteEvent, h]

/-- Witness for C1 at a concrete state and event. -/
theorem handleRemoteEvent_self_ignored_witness :
    sampleMsg.nodeId = sampleSt.nodeId ∧
      handleRemoteEvent sampleSt sampleMsg = sampleSt :=
  ⟨rfl, handleRemoteEvent_self_ignored sampleSt sampleMsg rfl⟩

/-- C7: every adapter operation invoked while the readiness flag is down
is total (the model is a pure function, mirroring the catch-all JS
methods) and returns the failure sentinel of its kind — `false` for the
boolean-result operations, `null` for `get`, and the empty sequence for
list reads — leaving the adapter state untouched. -/
theorem adapter_not_ready_sentinels (s : AdapterState)
    (h : s.isConnected = false) (ch msg k v : String) (hid : Nat)
    (ttl : Option Nat) (items : List String) :
    RedisAdapter.publish s ch msg = (false, s) ∧
    RedisAdapter.subscribe s ch hid = (false, s) ∧
    RedisAdapter.get s k = none ∧
    RedisAdapter.set s k v ttl = (false, s) ∧
    RedisAdapter.delete s k = (false, s) ∧
    RedisAdapter.listPush s k v = (false, s) ∧
    RedisAdapter.listGetAll s k = [] ∧
    RedisAdapter.listReplace s k items = (false, s) := by
  simp [RedisAdapter.publish, RedisAdapter.subscribe, RedisAdapter.get,
        RedisAdapter.set, RedisAdapter.delete, RedisAdapter.listPush,
        RedisAdapter.listGetAll, RedisAdapter.listReplace, h]

/-- Witness for C7 at a concrete disconnected adapter. -/
theorem adapter_not_ready_sentinels_witness :
    RedisAdapter.publish sampleAdapterDown "c" "m" = (false, sampleAdapterDown) ∧
    RedisAdapter.subscribe sampleAdapterDown "c" 7 = (false, sampleAdapterDown) ∧
    RedisAdapter.get sampleAdapterDown "k" = none ∧
    RedisAdapter.set sampleAdapterDown "k" "v" none = (false, sampleAdapterDown) ∧
    RedisAdapter.delete sampleAdapterDown "k" = (false, sampleAdapterDown) ∧
    RedisAdapter.listPush sampleAdapterDown "k" "v" = (false, sampleAdapterDown) ∧
    RedisAdapter.listGetAll sampleAdapterDown "k" = [] ∧
    RedisAdapter.listReplace sampleAdapterDown "k" [] = (false, sampleAdapterDown) :=
  adapter_not_ready_sentinels sampleAdapterDown rfl "c" "m" "k" "v" 7 none []

/-- C8: at most one local handler is registered per channel: after
subscribing `h1` and then `h2` on the same channel, the registry holds
exactly `h2` for that channel, and a message arriving afterwards is
delivered to `h2` only (the registry has a single slot per channel, so
there is no fan-out to both handlers). -/
theorem subscribe_replaces_handler (s : AdapterState) (ch : String)
    (h1 h2 : Nat) (hc : s.isConnected = true) :
    ((RedisAdapter.subscribe (RedisAdapter.subscribe s ch h1).2 ch h2).2).handlers ch
        = some h2 ∧
    RedisAdapter.deliverMessage
        (RedisAdapter.subscribe (RedisAdapter.subscribe s ch h1).2 ch h2).2 ch
        = some h2 := by
  simp [RedisAdapter.subscribe, RedisAdapter.deliverMessage, hc, updFun]

/-- Witness for C8 at a concrete connected adapter. -/
theorem subscribe_replaces_handler_witness :
    ((RedisAdapter.subscribe (RedisAdapter.subscribe sampleAdapterUp "c" 1).2 "c" 2).2).handlers "c"
        = some 2 ∧
    RedisAdapter.deliverMessage
        (RedisAdapter.subscribe (RedisAdapter.subscribe sampleAdapterUp "c" 1).2 "c" 2).2 "c"
        = some 2 :=
  subscribe_replaces_handler sampleAdapterUp "c" 1 2 rfl

/-! Helper lemmas about the embedded operations. -/

@[simp]
theorem updFun_same {α : Type} (f : String → α) (k : String) (v : α) :
    updFun f k v k = v := by
  simp [updFun]

@[simp]
theorem updFun_ne {α : Type} (f : String → α) (k k2 : String) (v : α)
    (h : (k2 == k) = false) : updFun f k v k2 = f k2 := by
  simp [updFun, h]

@[simp]
theorem undoKey_beq_whiteboardKey (w : String) :
    (undoKey w == whiteboardKey w) = false := by
  rw [beq_eq_false_iff_ne]
  intro h
  have hd : (undoKey w).data = (whiteboardKey w).data := congrArg String.data h
  simp only [undoKey, whiteboardKey, String.data_append] at hd
  have h2 := (List.append_inj hd (by decide)).1
  exact absurd h2 (by decide)

@[simp]
theorem whiteboardKey_beq_undoKey (w : String) :
    (whiteboardKey w == undoKey w) = false := by
  rw [beq_eq_false_iff_ne]
  intro h
  exact beq_eq_false_iff_ne.mp (undoKey_beq_whiteboardKey w) h.symm

/-- The inner splice loop keeps the non-matching elements in order and
moves the matching ones in reverse list order. -/
theorem extractGroup_eq (did : Option String) (user : String) (l : List Action) :
    extractGroup did user l =
      (l.filter (fun a => !(a.drawId == did && a.username == user)),
       (l.filter (fun a => a.drawId == did && a.username == user)).reverse) := by
  induction l with
  | nil => rfl
  | cons a rest ih =>
    simp only [extractGroup, ih, List.filter_cons]
    cases h : (a.drawId == did && a.username == user)
    · simp [h]
    · simp [h]

/-- Scanning from the end finds a hit inside the suffix first. -/
theorem findLastOwned_append_of_some (user : String) (st mv : List Action)
    (a : Action) (h : findLastOwned user mv = some a) :
    findLastOwned user (st ++ mv) = some a := by
  induction st with
  | nil => simpa using h
  | cons b st ih => simp [findLastOwned, ih]

/-- The most recent action of a list ending in an action owned by the
user is that action. -/
theorem findLastOwned_concat_self (user : String) (l : List Action)
    (a : Action) (h : a.username = user) :
    findLastOwned user (l ++ [a]) = some a := by
  apply findLastOwned_append_of_some
  simp [findLastOwned, h]

/-- The found action is a member of the list and is owned by the user. -/
theorem findLastOwned_mem_owned (user : String) (l : List Action)
    (a : Action) (h : findLastOwned user l = some a) :
    a ∈ l ∧ a.username = user := by
  induction l with
  | nil => simp [findLastOwned] at h
  | cons b rest ih =>
    simp only [findLastOwned] at h
    cases hr : findLastOwned user rest with
    | some c =>
      rw [hr] at h
      obtain ⟨hm, ho⟩ := ih (hr.trans (by injection h with h2; rw [h2]))
      exact ⟨List.mem_cons_of_mem _ hm, ho⟩
    | none =>
      rw [hr] at h
      by_cases hb : (b.username == user) = true
      · simp [hb] at h
        subst h
        exact ⟨List.mem_cons_self _ _, by simpa using hb⟩
      · simp [hb] at h

/-- The trimmed undo stack never exceeds 1000 entries. -/
theorem trimUndo_length_le (l : List Action) : (trimUndo l).length ≤ 1000 := by
  unfold trimUndo
  split
  · simp only [List.length_drop]
    omega
  · omega

/-- Trimming a stack within the bound is a no-op. -/
theorem trimUndo_of_le (l : List Action) (h : l.length ≤ 1000) :
    trimUndo l = l := by
  unfold trimUndo
  rw [if_neg (by omega)]

/-- Appending one entry to a full stack evicts exactly the oldest one. -/
theorem trimUndo_full_concat (st : List Action) (a : Action)
    (h : st.length = 1000) : trimUndo (st ++ [a]) = st.drop 1 ++ [a] := by
  unfold trimUndo
  rw [if_pos (by simp [h])]
  have hlen : (st ++ [a]).length - 1000 = 1 := by simp [h]
  rw [hlen, List.drop_append_of_le_length (by omega)]

/-- Trimming after pushing a group of at most 1000 entries evicts only
from the front, i.e. only the oldest of the pre-existing entries; the
pushed group always survives in full. -/
theorem trimUndo_append_of_le (st mv : List Action) (hm : mv.length ≤ 1000) :
    trimUndo (st ++ mv) = st.drop (st.length + mv.length - 1000) ++ mv := by
  unfold trimUndo
  by_cases h : (st ++ mv).length > 1000
  · rw [if_pos h, List.length_append,
      List.drop_append_of_le_length
        (show st.length + mv.length - 1000 ≤ st.length by omega)]
  · rw [if_neg h]
    have h2 : st.length + mv.length ≤ 1000 := by
      rw [← List.length_append]
      omega
    rw [show st.length + mv.length - 1000 = 0 by omega, List.drop_zero]

/-- A cache hit returns the cached board and leaves the state unchanged. -/
theorem loadStoredData_cached (s : St) (wid : String) (b : List Action)
    (hc : s.cache wid = some b) : loadStoredData s wid = (b, s) := by
  simp [loadStoredData, hc]

@[simp]
theorem loadStoredData_ready (s : St) (wid : String) :
    (loadStoredData s wid).2.ready = s.ready := by
  unfold loadStoredData
  split
  · rfl
  · split
    · split <;> rfl
    · rfl

@[simp]
theorem loadStoredData_nodeId (s : St) (wid : String) :
    (loadStoredData s wid).2.nodeId = s.nodeId := by
  unfold loadStoredData
  split
  · rfl
  · split
    · split <;> rfl
    · rfl

@[simp]
theorem loadStoredData_events (s : St) (wid : String) :
    (loadStoredData s wid).2.events = s.events := by
  unfold loadStoredData
  split
  · rfl
  · split
    · split <;> rfl
    · rfl

@[simp]
theorem loadStoredData_store (s : St) (wid : String) :
    (loadStoredData s wid).2.store = s.store := by
  unfold loadStoredData
  split
  · rfl
  · split
    · split <;> rfl
    · rfl

/-- After a load the cache always holds exactly the returned board. -/
@[simp]
theorem loadStoredData_cache_self (s : St) (wid : String) :
    (loadStoredData s wid).2.cache wid = some (loadStoredData s wid).1 := by
  unfold loadStoredData
  split
  next data heq => simp [heq]
  next heq =>
    split
    · split <;> simp
    · simp

@[simp]
theorem saveUndoStack_ready (s : St) (wid : String) (st : List Action) :
    (saveUndoStack s wid st).ready = s.ready := by
  unfold saveUndoStack
  split <;> rfl

@[simp]
theorem saveUndoStack_nodeId (s : St) (wid : String) (st : List Action) :
    (saveUndoStack s wid st).nodeId = s.nodeId := by
  unfold saveUndoStack
  split <;> rfl

@[simp]
theorem saveUndoStack_events (s : St) (wid : String) (st : List Action) :
    (saveUndoStack s wid st).events = s.events := by
  unfold saveUndoStack
  split <;> rfl

@[simp]
theorem saveUndoStack_cache (s : St) (wid : String) (st : List Action) :
    (saveUndoStack s wid st).cache = s.cache := by
  unfold saveUndoStack
  split <;> rfl

@[simp]
theorem saveToDB_ready (s : St) (wid : String) :
    (saveToDB s wid).ready = s.ready := by
  unfold saveToDB
  split
  · split <;> rfl
  · rfl

@[simp]
theorem saveToDB_nodeId (s : St) (wid : String) :
    (saveToDB s wid).nodeId = s.nodeId := by
  unfold saveToDB
  split
  · split <;> rfl
  · rfl

@[simp]
theorem saveToDB_events (s : St) (wid : String) :
    (saveToDB s wid).events = s.events := by
  unfold saveToDB
  split
  · split <;> rfl
  · rfl

@[simp]
theorem saveToDB_cache (s : St) (wid : String) :
    (saveToDB s wid).cache = s.cache := by
  unfold saveToDB
  split
  · split <;> rfl
  · rfl

@[simp]
theorem publishEvent_ready (s : St) (e : RepEvent) :
    (publishEvent s e).ready = s.ready := by
  unfold publishEvent
  split <;> rfl

@[simp]
theorem publishEvent_nodeId (s : St) (e : RepEvent) :
    (publishEvent s e).nodeId = s.nodeId := by
  unfold publishEvent
  split <;> rfl

@[simp]
theorem publishEvent_cache (s : St) (e : RepEvent) :
    (publishEvent s e).cache = s.cache := by
  unfold publishEvent
  split <;> rfl

@[simp]
theorem publishEvent_store (s : St) (e : RepEvent) :
    (publishEvent s e).store = s.store := by
  unfold publishEvent
  split <;> rfl

theorem publishEvent_events_ready (s : St) (e : RepEvent) (hr : s.ready = true) :
    (publishEvent s e).events = s.events ++ [{ e with nodeId := s.nodeId }] := by
  simp [publishEvent, hr]

@[simp]
theorem saveDrawingAction_ready (s : St) (wid : String) (c : Action) :
    (saveDrawingAction s wid c).ready = s.ready := by
  unfold saveDrawingAction
  simp

@[simp]
theorem saveDrawingAction_nodeId (s : St) (wid : String) (c : Action) :
    (saveDrawingAction s wid c).nodeId = s.nodeId := by
  unfold saveDrawingAction
  simp

@[simp]
theorem saveDrawingAction_events (s : St) (wid : String) (c : Action) :
    (saveDrawingAction s wid c).events = s.events := by
  unfold saveDrawingAction
  simp

@[simp]
theorem handleUndo_ready (s : St) (wid user : String) :
    (handleUndo s wid user).ready = s.ready := by
  unfold handleUndo
  simp

@[simp]
theorem handleUndo_nodeId (s : St) (wid user : String) :
    (handleUndo s wid user).nodeId = s.nodeId := by
  unfold handleUndo
  simp

@[simp]
theorem handleUndo_events (s : St) (wid user : String) :
    (handleUndo s wid user).events = s.events := by
  unfold handleUndo
  simp

@[simp]
theorem handleRedo_ready (s : St) (wid user : String) :
    (handleRedo s wid user).ready = s.ready := by
  unfold handleRedo
  simp

@[simp]
theorem handleRedo_nodeId (s : St) (wid user : String) :
    (handleRedo s wid user).nodeId = s.nodeId := by
  unfold handleRedo
  simp

@[simp]
theorem handleRedo_events (s : St) (wid user : String) :
    (handleRedo s wid user).events = s.events := by
  unfold handleRedo
  simp

@[simp]
theorem clearWhiteboard_ready (s : St) (wid : String) :
    (clearWhiteboard s wid).ready = s.ready := by
  cases hr : s.ready <;> simp [clearWhiteboard, hr]

@[simp]
theorem clearWhiteboard_nodeId (s : St) (wid : String) :
    (clearWhiteboard s wid).nodeId = s.nodeId := by
  cases hr : s.ready <;> simp [clearWhiteboard, hr]

theorem clearWhiteboard_events_ready (s : St) (wid : String) (hr : s.ready = true) :
    (clearWhiteboard s wid).events =
      s.events ++ [{ type := "clear", wid := wid, tool := none, data := none,
                     content := none, nodeId := s.nodeId }] := by
  unfold clearWhiteboard
  simp [hr, publishEvent_events_ready]

/-- On a cache hit, `handleUndo` with a most-recent owned action `a`
filters the {drawId, username} group out of the board, pushes it (in
reverse order) onto the undo stack, trims, and persists. -/
theorem handleUndo_eq_some (s : St) (wid user : String) (board : List Action)
    (a : Action) (hc : s.cache wid = some board)
    (hf : findLastOwned user board = some a) :
    handleUndo s wid user =
      saveToDB
        (saveUndoStack
          { s with
            cache :=
              updFun s.cache wid
                (some (board.filter (fun x => !(x.drawId == a.drawId && x.username == user)))) }
          wid
          (trimUndo (getUndoStack s wid ++
            (board.filter (fun x => x.drawId == a.drawId && x.username == user)).reverse)))
        wid := by
  unfold handleUndo
  rw [loadStoredData_cached s wid board hc]
  simp [hf, extractGroup_eq]

/-- On a cache hit with a ready adapter, `handleRedo` with a most-recent
owned stack entry `a` appends the stack's {drawId, username} group (in
reverse stack order) to the board and removes it from the stack. -/
theorem handleRedo_eq_some (s : St) (wid user : String)
    (board stack : List Action) (a : Action)
    (hc : s.cache wid = some board) (hr : s.ready = true)
    (hs : s.store (undoKey wid) = stack)
    (hf : findLastOwned user stack = some a) :
    handleRedo s wid user =
      saveToDB
        (saveUndoStack
          { s with
            cache :=
              updFun s.cache wid
                (some (board ++
                  (stack.filter (fun x => x.drawId == a.drawId && x.username == user)).reverse)) }
          wid
          (stack.filter (fun x => !(x.drawId == a.drawId && x.username == user))))
        wid := by
  unfold handleRedo
  rw [loadStoredData_cached s wid board hc]
  simp [getUndoStack, hr, hs, hf, extractGroup_eq]

/-- Post-state of a ready `handleUndo` on a cache hit: the cache holds
the filtered board, readiness is preserved, and the persisted stack is
the old stack plus the moved group (reversed), trimmed. -/
theorem handleUndo_post (s : St) (wid user : String) (board : List Action)
    (a : Action) (hr : s.ready = true) (hc : s.cache wid = some board)
    (hf : findLastOwned user board = some a) :
    (handleUndo s wid user).cache wid =
      some (board.filter (fun x => !(x.drawId == a.drawId && x.username == user))) ∧
    (handleUndo s wid user).ready = true ∧
    (handleUndo s wid user).store (undoKey wid) =
      trimUndo (s.store (undoKey wid) ++
        (board.filter (fun x => x.drawId == a.drawId && x.username == user)).reverse) := by
  rw [handleUndo_eq_some s wid user board a hc hf]
  refine ⟨by simp, by simp [hr], ?_⟩
  simp [saveUndoStack, saveToDB, getUndoStack, hr]

/-- C3: on a board whose most recent action owned by `user` is `a`,
`handleUndo` removes exactly the actions matching {a.drawId, user} (all
other actions keep their presence and relative order, via `filter`), and
moves that whole group — and nothing else — onto the persisted undo
stack (in reverse scan order, trimmed to 1000). -/
theorem handleUndo_removes_latest_group (s : St) (wid user : String)
    (board : List Action) (a : Action)
    (hc : s.cache wid = some board)
    (hf : findLastOwned user board = some a) :
    (handleUndo s wid user).cache wid =
      some (board.filter (fun x => !(x.drawId == a.drawId && x.username == user))) ∧
    (s.ready = true →
      (handleUndo s wid user).store (undoKey wid) =
        trimUndo (s.store (undoKey wid) ++
          (board.filter (fun x => x.drawId == a.drawId && x.username == user)).reverse)) := by
  rw [handleUndo_eq_some s wid user board a hc hf]
  constructor
  · simp
  · intro hr
    simp [saveUndoStack, saveToDB, getUndoStack, hr]

/-- Witness for C3 at a concrete one-action board. -/
theorem handleUndo_removes_latest_group_witness :
    (handleUndo stWithBoard "b" "u").cache "b" =
      some (([act1]).filter (fun x => !(x.drawId == act1.drawId && x.username == "u"))) ∧
    (stWithBoard.ready = true →
      (handleUndo stWithBoard "b" "u").store (undoKey "b") =
        trimUndo (stWithBoard.store (undoKey "b") ++
          (([act1]).filter (fun x => x.drawId == act1.drawId && x.username == "u")).reverse)) :=
  handleUndo_removes_latest_group stWithBoard "b" "u" [act1] act1 (by decide) (by decide)

/-- C10: with the adapter not ready, `handleUndo` still removes the
user's most recent group from the local cache, but persists nothing (the
whole store is untouched and `getUndoStack` yields the empty sequence),
so a subsequent `handleRedo` finds nothing to restore and leaves the
action list unchanged — the undone actions are unrecoverable. -/
theorem handleUndo_not_ready_unrecoverable (s : St) (wid user : String)
    (board : List Action) (a : Action)
    (hr : s.ready = false) (hc : s.cache wid = some board)
    (hf : findLastOwned user board = some a) :
    (handleUndo s wid user).cache wid =
      some (board.filter (fun x => !(x.drawId == a.drawId && x.username == user))) ∧
    (handleUndo s wid user).store = s.store ∧
    getUndoStack (handleUndo s wid user) wid = [] ∧
    (handleRedo (handleUndo s wid user) wid user).cache wid =
      some (board.filter (fun x => !(x.drawId == a.drawId && x.username == user))) := by
  rw [handleUndo_eq_some s wid user board a hc hf]
  have hkeep :
      (saveToDB
        (saveUndoStack
          { s with
            cache :=
              updFun s.cache wid
                (some (board.filter (fun x => !(x.drawId == a.drawId && x.username == user)))) }
          wid
          (trimUndo (getUndoStack s wid ++
            (board.filter (fun x => x.drawId == a.drawId && x.username == user)).reverse)))
        wid).cache wid =
        some (board.filter (fun x => !(x.drawId == a.drawId && x.username == user))) := by
    simp
  refine ⟨hkeep, ?_, ?_, ?_⟩
  · simp [saveUndoStack, saveToDB, hr]
  · simp [getUndoStack, hr]
  · unfold handleRedo
    rw [loadStoredData_cached _ _ _ hkeep]
    simp [getUndoStack, hr, findLastOwned, saveUndoStack, saveToDB]

/-- Witness for C10 at a concrete not-ready node. -/
theorem handleUndo_not_ready_unrecoverable_witness :
    (handleUndo stNotReady "b" "u").cache "b" =
      some (([act1]).filter (fun x => !(x.drawId == act1.drawId && x.username == "u"))) ∧
    (handleUndo stNotReady "b" "u").store = stNotReady.store ∧
    getUndoStack (handleUndo stNotReady "b" "u") "b" = [] ∧
    (handleRedo (handleUndo stNotReady "b" "u") "b" "u").cache "b" =
      some (([act1]).filter (fun x => !(x.drawId == act1.drawId && x.username == "u"))) :=
  handleUndo_not_ready_unrecoverable stNotReady "b" "u" [act1] act1
    (by decide) (by decide) (by decide)

/-- With a ready adapter, the persisted undo stack after `handleUndo` is
always the result of a trim. -/
theorem handleUndo_store_undoKey_trimmed (s : St) (wid user : String)
    (hr : s.ready = true) :
    ∃ l, (handleUndo s wid user).store (undoKey wid) = trimUndo l := by
  unfold handleUndo
  cases h : findLastOwned user (loadStoredData s wid).1 with
  | none =>
    refine ⟨getUndoStack (loadStoredData s wid).2 wid, ?_⟩
    simp [h, saveUndoStack, saveToDB, hr]
  | some a =>
    refine ⟨getUndoStack (loadStoredData s wid).2 wid ++
      (extractGroup a.drawId user (loadStoredData s wid).1).2, ?_⟩
    simp [h, saveUndoStack, saveToDB, hr]

/-- C5: after every `handleUndo` call the board's undo stack holds at
most 1000 entries; and pushing one more single-action group onto an
exactly-full stack evicts exactly the oldest entry, leaving the other
999 old entries (in order) plus the new one. -/
theorem handleUndo_stack_bound (s : St) (wid user : String) :
    (getUndoStack (handleUndo s wid user) wid).length ≤ 1000 ∧
    (∀ board a, s.ready = true → s.cache wid = some board →
      findLastOwned user board = some a →
      board.filter (fun x => x.drawId == a.drawId && x.username == user) = [a] →
      (s.store (undoKey wid)).length = 1000 →
      (handleUndo s wid user).store (undoKey wid) =
        (s.store (undoKey wid)).drop 1 ++ [a]) := by
  constructor
  · cases hr : s.ready with
    | false => simp [getUndoStack, hr]
    | true =>
      obtain ⟨l, hl⟩ := handleUndo_store_undoKey_trimmed s wid user hr
      simp [getUndoStack, hr, hl, trimUndo_length_le]
  · intro board a hr hc hf hg hlen
    have h := (handleUndo_post s wid user board a hr hc hf).2.2
    rw [h, hg]
    simpa using trimUndo_full_concat (s.store (undoKey wid)) a hlen

/-- Witness for C5 at a node with an exactly-full persisted stack. -/
theorem handleUndo_stack_bound_witness :
    (getUndoStack (handleUndo stFull "b" "u") "b").length ≤ 1000 ∧
    (handleUndo stFull "b" "u").store (undoKey "b") =
      (stFull.store (undoKey "b")).drop 1 ++ [act1] := by
  have h := handleUndo_stack_bound stFull "b" "u"
  have hlen : (stFull.store (undoKey "b")).length = 1000 := by
    rw [show stFull.store = updFun sampleSt.store (undoKey "b") (List.replicate 1000 act2)
          from rfl,
        updFun_same, List.length_replicate]
  exact ⟨h.1, h.2 [act1] act1 (by decide) (by decide) (by decide) (by decide) hlen⟩

/-- The appended action of a `setTextboxText` write matches the collapse
predicate of its own textbox id and resets the cache to the filtered
board plus itself. -/
theorem saveDrawingAction_textbox_cache (s : St) (wid : String) (c : Action)
    (hc : c.t = "setTextboxText") :
    (saveDrawingAction s wid c).cache wid =
      some ((loadStoredData s wid).1.filter
          (fun item => !(item.t == "setTextboxText" && item.d.head? == c.d.head?)) ++
        [stripWid c]) := by
  unfold saveDrawingAction
  simp [hc]

/-- C6: `saveDrawingAction` with the textbox-text tool first removes
every stored action with the same tool and the same leading payload
identifier `d[0]`, then appends the new value; hence two such appends
with the same leading identifier leave exactly one stored action with
that tool and identifier — the later one (wid-stripped). -/
theorem saveDrawingAction_textbox_collapse (s : St) (wid : String)
    (c1 c2 : Action) (h1 : c1.t = "setTextboxText")
    (h2 : c2.t = "setTextboxText") (hd : c1.d.head? = c2.d.head?) :
    (saveDrawingAction s wid c2).cache wid =
      some ((loadStoredData s wid).1.filter
          (fun item => !(item.t == "setTextboxText" && item.d.head? == c2.d.head?)) ++
        [stripWid c2]) ∧
    (((saveDrawingAction (saveDrawingAction s wid c1) wid c2).cache wid).getD []).filter
        (fun x => x.t == "setTextboxText" && x.d.head? == c2.d.head?) =
      [stripWid c2] := by
  refine ⟨saveDrawingAction_textbox_cache s wid c2 h2, ?_⟩
  have key1 := saveDrawingAction_textbox_cache s wid c1 h1
  have key2 := saveDrawingAction_textbox_cache (saveDrawingAction s wid c1) wid c2 h2
  rw [key2, loadStoredData_cached (saveDrawingAction s wid c1) wid _ key1]
  simp [List.filter_append, List.filter_filter, stripWid, h2]
  intro a _ ha hb hcon
  rcases hcon with h | h
  · exact absurd ha h
  · exact absurd hb h

/-- Witness for C6 at two concrete textbox-text actions sharing id "id1". -/
theorem saveDrawingAction_textbox_collapse_witness :
    (saveDrawingAction sampleSt "b" tb2).cache "b" =
      some ((loadStoredData sampleSt "b").1.filter
          (fun item => !(item.t == "setTextboxText" && item.d.head? == tb2.d.head?)) ++
        [stripWid tb2]) ∧
    (((saveDrawingAction (saveDrawingAction sampleSt "b" tb1) "b" tb2).cache "b").getD []).filter
        (fun x => x.t == "setTextboxText" && x.d.head? == tb2.d.head?) =
      [stripWid tb2] :=
  saveDrawingAction_textbox_collapse sampleSt "b" tb1 tb2 (by decide) (by decide) (by decide)

/-- C9: with a ready adapter, `clearWhiteboard` deletes the cached board,
deletes both the stored action list and the stored undo stack, publishes
a clear-typed event, and a subsequent `loadStoredData` returns the empty
sequence. -/
theorem clearWhiteboard_wipes (s : St) (wid : String) (hr : s.ready = true) :
    (clearWhiteboard s wid).cache wid = none ∧
    (clearWhiteboard s wid).store (whiteboardKey wid) = [] ∧
    (clearWhiteboard s wid).store (undoKey wid) = [] ∧
    (clearWhiteboard s wid).events =
      s.events ++ [{ type := "clear", wid := wid, tool := none, data := none,
                     content := none, nodeId := s.nodeId }] ∧
    (loadStoredData (clearWhiteboard s wid) wid).1 = [] := by
  have hcache : (clearWhiteboard s wid).cache wid = none := by
    simp [clearWhiteboard, hr]
  have hwb : (clearWhiteboard s wid).store (whiteboardKey wid) = [] := by
    simp [clearWhiteboard, hr]
  have hun : (clearWhiteboard s wid).store (undoKey wid) = [] := by
    simp [clearWhiteboard, hr]
  have hready : (clearWhiteboard s wid).ready = true := by
    rw [clearWhiteboard_ready, hr]
  refine ⟨hcache, hwb, hun, clearWhiteboard_events_ready s wid hr, ?_⟩
  unfold loadStoredData
  rw [hcache]
  simp [hready, hwb]

/-- Witness for C9 at a concrete ready node with a non-empty board. -/
theorem clearWhiteboard_wipes_witness :
    (clearWhiteboard stWithBoard "b").cache "b" = none ∧
    (clearWhiteboard stWithBoard "b").store (whiteboardKey "b") = [] ∧
    (clearWhiteboard stWithBoard "b").store (undoKey "b") = [] ∧
    (clearWhiteboard stWithBoard "b").events =
      stWithBoard.events ++
        [{ type := "clear", wid := "b", tool := none, data := none,
           content := none, nodeId := stWithBoard.nodeId }] ∧
    (loadStoredData (clearWhiteboard stWithBoard "b") "b").1 = [] :=
  clearWhiteboard_wipes stWithBoard "b" (by decide)

@[simp]
theorem dispatchMutation_ready (s : St) (c : Action) :
    (dispatchMutation s c).ready = s.ready := by
  unfold dispatchMutation
  split
  · simp
  · split
    · simp
    · split
      · simp
      · split <;> simp

@[simp]
theorem dispatchMutation_nodeId (s : St) (c : Action) :
    (dispatchMutation s c).nodeId = s.nodeId := by
  unfold dispatchMutation
  split
  · simp
  · split
    · simp
    · split
      · simp
      · split <;> simp

theorem dispatchMutation_events_ready (s : St) (c : Action)
    (hr : s.ready = true) :
    (dispatchMutation s c).events =
      if c.t = "clear" then
        s.events ++ [{ type := "clear", wid := widKey c.wid, tool := none,
                       data := none, content := none, nodeId := s.nodeId }]
      else s.events := by
  unfold dispatchMutation
  by_cases h : c.t = "clear"
  · have hb : (c.t == "clear") = true := by simp [h]
    simp [hb, h, clearWhiteboard_events_ready s (widKey c.wid) hr]
  · have hb : (c.t == "clear") = false := by simp [h]
    simp only [hb, Bool.false_eq_true, if_false, if_neg h]
    split
    · simp
    · split
      · simp
      · split <;> simp

/-- C2: with a ready adapter, `handleEventsAndData` always publishes an
update-typed event whose `data` field is the post-mutation cached action
list of the board; for the clear mutation this update event is preceded
by the clear event of `clearWhiteboard`, and for every other mutation it
is the only event published. -/
theorem handleEventsAndData_publishes_update (s : St) (c : Action)
    (hr : s.ready = true) :
    (handleEventsAndData s c).events =
      s.events ++
        (if c.t = "clear" then
          [{ type := "clear", wid := widKey c.wid, tool := none, data := none,
             content := none, nodeId := s.nodeId },
           { type := "update", wid := widKey c.wid, tool := some c.t,
             data := (handleEventsAndData s c).cache (widKey c.wid),
             content := some c, nodeId := s.nodeId }]
         else
          [{ type := "update", wid := widKey c.wid, tool := some c.t,
             data := (handleEventsAndData s c).cache (widKey c.wid),
             content := some c, nodeId := s.nodeId }]) := by
  have h1 : (dispatchMutation s c).ready = true := by
    rw [dispatchMutation_ready, hr]
  unfold handleEventsAndData
  rw [publishEvent_events_ready _ _ h1, dispatchMutation_events_ready s c hr]
  by_cases h : c.t = "clear" <;> simp [h, List.append_assoc]

/-- C4 as stated is false on the code: if the persisted undo stack
already holds a stale entry matching {drawId D1, user U}, the redo moves
that entry onto the board as well, so the post-roundtrip action list's
membership differs from the pre-undo list.  Concretely, board "b" holds
only `act1` and the stack holds `act2` (same drawId "d", same user "u");
after undo then redo the board contains `act2`, which the pre-undo list
never contained. -/
theorem undo_redo_roundtrip_counterexample :
    ¬ (∀ x : Action,
        x ∈ (((handleRedo (handleUndo stStale "b" "u") "b" "u").cache "b").getD []) ↔
          x ∈ ((stStale.cache "b").getD [])) := by
  intro h
  exact absurd ((h act2).mp (by decide)) (by decide)

/-- C4 (amended): provided the persisted undo stack holds no entry
matching {A.drawId, user} before the undo and the undone group itself
has at most 1000 actions (so the trim evicts only older, non-matching
entries), undo followed by redo (no interleaved mutation) yields
`kept ++ group`, a permutation of — hence with the same membership as —
the pre-undo list. -/
theorem undo_redo_roundtrip_amended (s : St) (wid user : String)
    (l : List Action) (A : Action)
    (hr : s.ready = true)
    (hc : s.cache wid = some (l ++ [A]))
    (hA : A.username = user)
    (hnm : ∀ x ∈ s.store (undoKey wid),
      (x.drawId == A.drawId && x.username == user) = false)
    (hgl : ((l ++ [A]).filter
        (fun x => x.drawId == A.drawId && x.username == user)).length ≤ 1000) :
    (handleRedo (handleUndo s wid user) wid user).cache wid =
      some ((l ++ [A]).filter (fun x => !(x.drawId == A.drawId && x.username == user)) ++
        (l ++ [A]).filter (fun x => x.drawId == A.drawId && x.username == user)) ∧
    ((l ++ [A]).filter (fun x => !(x.drawId == A.drawId && x.username == user)) ++
        (l ++ [A]).filter (fun x => x.drawId == A.drawId && x.username == user)).Perm
      (l ++ [A]) := by
  have hf : findLastOwned user (l ++ [A]) = some A :=
    findLastOwned_concat_self user l A hA
  have hgA : (A.drawId == A.drawId && A.username == user) = true := by simp [hA]
  have hmemA : A ∈ (l ++ [A]).filter
      (fun x => x.drawId == A.drawId && x.username == user) :=
    List.mem_filter.mpr ⟨by simp, hgA⟩
  obtain ⟨h', t', hft⟩ :=
    List.exists_cons_of_ne_nil (List.ne_nil_of_mem hmemA)
  have hmemh' : h' ∈ (l ++ [A]).filter
      (fun x => x.drawId == A.drawId && x.username == user) := by
    rw [hft]
    exact List.mem_cons_self _ _
  have hgh' : (h'.drawId == A.drawId && h'.username == user) = true :=
    (List.mem_filter.mp hmemh').2
  have hand := (Bool.and_eq_true _ _).mp hgh'
  have hdid : h'.drawId = A.drawId := by simpa using hand.1
  have howner : h'.username = user := by simpa using hand.2
  obtain ⟨hu_cache, hu_ready, hu_stack⟩ :=
    handleUndo_post s wid user (l ++ [A]) A hr hc hf
  have hu_stack' : (handleUndo s wid user).store (undoKey wid) =
      (s.store (undoKey wid)).drop
          ((s.store (undoKey wid)).length +
            ((l ++ [A]).filter
              (fun x => x.drawId == A.drawId && x.username == user)).reverse.length -
            1000) ++
        ((l ++ [A]).filter (fun x => x.drawId == A.drawId && x.username == user)).reverse := by
    rw [hu_stack]
    exact trimUndo_append_of_le _ _
      (by simp only [List.length_reverse]; exact hgl)
  have hmv : ((l ++ [A]).filter
      (fun x => x.drawId == A.drawId && x.username == user)).reverse =
      t'.reverse ++ [h'] := by
    rw [hft, List.reverse_cons]
  have hfstack : findLastOwned user
      ((s.store (undoKey wid)).drop
          ((s.store (undoKey wid)).length +
            ((l ++ [A]).filter
              (fun x => x.drawId == A.drawId && x.username == user)).reverse.length -
            1000) ++
        ((l ++ [A]).filter (fun x => x.drawId == A.drawId && x.username == user)).reverse) =
      some h' := by
    rw [hmv, ← List.append_assoc]
    exact findLastOwned_concat_self user _ h' howner
  have hfilter : ((s.store (undoKey wid)).drop
          ((s.store (undoKey wid)).length +
            ((l ++ [A]).filter
              (fun x => x.drawId == A.drawId && x.username == user)).reverse.length -
            1000) ++
      ((l ++ [A]).filter (fun x => x.drawId == A.drawId && x.username == user)).reverse).filter
        (fun x => x.drawId == A.drawId && x.username == user) =
      ((l ++ [A]).filter (fun x => x.drawId == A.drawId && x.username == user)).reverse := by
    rw [List.filter_append]
    have h0 : ((s.store (undoKey wid)).drop
          ((s.store (undoKey wid)).length +
            ((l ++ [A]).filter
              (fun x => x.drawId == A.drawId && x.username == user)).reverse.length -
            1000)).filter
        (fun x => x.drawId == A.drawId && x.username == user) = [] :=
      List.filter_eq_nil_iff.mpr fun x hx => by
        simp [hnm x (List.mem_of_mem_drop hx)]
    have h1 : (((l ++ [A]).filter
        (fun x => x.drawId == A.drawId && x.username == user)).reverse).filter
          (fun x => x.drawId == A.drawId && x.username == user) =
        ((l ++ [A]).filter (fun x => x.drawId == A.drawId && x.username == user)).reverse :=
      List.filter_eq_self.mpr fun x hx =>
        (List.mem_filter.mp (List.mem_reverse.mp hx)).2
    rw [h0, h1, List.nil_append]
  constructor
  · rw [handleRedo_eq_some (handleUndo s wid user) wid user
        ((l ++ [A]).filter (fun x => !(x.drawId == A.drawId && x.username == user)))
        ((s.store (undoKey wid)).drop
            ((s.store (undoKey wid)).length +
              ((l ++ [A]).filter
                (fun x => x.drawId == A.drawId && x.username == user)).reverse.length -
              1000) ++
          ((l ++ [A]).filter (fun x => x.drawId == A.drawId && x.username == user)).reverse)
        h' hu_cache hu_ready hu_stack' hfstack]
    rw [saveToDB_cache, saveUndoStack_cache]
    dsimp only
    rw [updFun_same, hdid, hfilter, List.reverse_reverse]
  · have hperm := List.filter_append_perm
      (fun x => !(x.drawId == A.drawId && x.username == user)) (l ++ [A])
    have hnn : (fun x : Action => !(!(x.drawId == A.drawId && x.username == user))) =
        (fun x : Action => x.drawId == A.drawId && x.username == user) :=
      funext fun x => Bool.not_not _
    rw [hnn] at hperm
    exact hperm

/-- Witness for the amended C4 at a concrete one-action board with an
empty persisted undo stack. -/
theorem undo_redo_roundtrip_amended_witness :
    (handleRedo (handleUndo stWithBoard "b" "u") "b" "u").cache "b" =
      some (([act1]).filter (fun x => !(x.drawId == act1.drawId && x.username == "u")) ++
        ([act1]).filter (fun x => x.drawId == act1.drawId && x.username == "u")) ∧
    (([act1]).filter (fun x => !(x.drawId == act1.drawId && x.username == "u")) ++
        ([act1]).filter (fun x => x.drawId == act1.drawId && x.username == "u")).Perm
      [act1] :=
  undo_redo_roundtrip_amended stWithBoard "b" "u" [] act1 (by decide) (by decide)
    (by decide)
    (by intro x hx; simp [stWithBoard, sampleSt] at hx)
    (by decide)

/-- Witness for C2 at a concrete drawing ("pen") event. -/
theorem handleEventsAndData_publishes_update_witness :
    (handleEventsAndData sampleSt act1).events =
      sampleSt.events ++
        (if act1.t = "clear" then
          [{ type := "clear", wid := widKey act1.wid, tool := none, data := none,
             content := none, nodeId := sampleSt.nodeId },
           { type := "update", wid := widKey act1.wid, tool := some act1.t,
             data := (handleEventsAndData sampleSt act1).cache (widKey act1.wid),
             content := some act1, nodeId := sampleSt.nodeId }]
         else
          [{ type := "update", wid := widKey act1.wid, tool := some act1.t,
             data := (handleEventsAndData sampleSt act1).cache (widKey act1.wid),
             content := some act1, nodeId := sampleSt.nodeId }]) :=
  handleEventsAndData_publishes_update sampleSt act1 (by decide)

end Whiteboard
